import Mathlib

/-!
Shallow embedding of the request-gating pipeline of a TypeScript HTTP
backend scaffold: the in-memory fixed-window rate limiter
(`src/shared/middleware/rate-limit.middleware.ts`), the input sanitizers
(`src/shared/utils/sanitization.util.ts`), the admin authorization
middlewares (`requireAdmin` / `requirePermission`), the structured error
taxonomy (`src/shared/utils/errors.ts`) and the centralized error
translator (`error-handler.middleware.ts` + `response.util.ts`).

Numbers (JS timestamps, counters, HTTP statuses) are modelled as `Nat`;
JS objects handed around as `unknown` are modelled by the `JsValue`
inductive; fallible middlewares return `Except AppError`.
-/

/-- Model of a deserialized JS value (string / number / boolean / null /
array / plain object), the shapes `sanitizeObject` walks. -/
inductive JsValue where
  | str (s : String)
  | num (n : Int)
  | boolean (b : Bool)
  | null
  | arr (items : List JsValue)
  | obj (fields : List (String × JsValue))

/-- Model of the `AppError` class of `src/shared/utils/errors.ts`:
message, HTTP status code, stable error code, operational flag and an
optional `details` payload. -/
structure AppError where
  message : String
  statusCode : Nat
  code : String
  isOperational : Bool
  details : Option JsValue

/-- The bare `new AppError(message)` constructor with its default
arguments: status 500, code `INTERNAL_ERROR`, operational, no details. -/
def AppError.ofMessage (message : String) : AppError :=
  { message := message, statusCode := 500, code := "INTERNAL_ERROR",
    isOperational := true, details := none }

/-- The `ValidationError` subclass: status 400, code `VALIDATION_ERROR`. -/
def ValidationError (message : String) (details : Option JsValue) : AppError :=
  { message := message, statusCode := 400, code := "VALIDATION_ERROR",
    isOperational := true, details := details }

/-- The `AuthenticationError` subclass at its default code:
status 401, code `AUTH_UNAUTHORIZED` (every call site in the embedded
middlewares uses the default code). -/
def AuthenticationError (message : String) : AppError :=
  { message := message, statusCode := 401, code := "AUTH_UNAUTHORIZED",
    isOperational := true, details := none }

/-- The `AuthorizationError` subclass: status 403, code `AUTH_FORBIDDEN`. -/
def AuthorizationError (message : String) : AppError :=
  { message := message, statusCode := 403, code := "AUTH_FORBIDDEN",
    isOperational := true, details := none }

/-- The `NotFoundError` subclass: status 404, code `RESOURCE_NOT_FOUND`. -/
def NotFoundError (message : String) : AppError :=
  { message := message, statusCode := 404, code := "RESOURCE_NOT_FOUND",
    isOperational := true, details := none }

/-- The `ConflictError` subclass: status 409, code `RESOURCE_ALREADY_EXISTS`. -/
def ConflictError (message : String) : AppError :=
  { message := message, statusCode := 409, code := "RESOURCE_ALREADY_EXISTS",
    isOperational := true, details := none }

/-- The `RateLimitError` subclass: status 429, code `RATE_LIMIT_EXCEEDED`. -/
def RateLimitError (message : String) : AppError :=
  { message := message, statusCode := 429, code := "RATE_LIMIT_EXCEEDED",
    isOperational := true, details := none }

/-- The `DatabaseError` subclass: status 500, code `DATABASE_ERROR`. -/
def DatabaseError (message : String) (details : Option JsValue) : AppError :=
  { message := message, statusCode := 500, code := "DATABASE_ERROR",
    isOperational := true, details := details }

/-! ## Rate limiter (`rate-limit.middleware.ts`) -/

/-- A per-key rate limit record: request count and window reset deadline
(a millisecond timestamp). -/
structure RateLimitRecord where
  count : Nat
  resetTime : Nat
deriving DecidableEq

/-- The rate limiter's in-memory store, `Map<string, RateLimitRecord>`,
modelled as a lookup function. -/
def RLStore : Type := String → Option RateLimitRecord

/-- The empty store. -/
def RLStore.empty : RLStore := fun _ => none

/-- `store.set(key, record)`. -/
def RLStore.setRec (s : RLStore) (key : String) (r : RateLimitRecord) : RLStore :=
  fun k => if k = key then some r else s k

/-- `RateLimiter.isRateLimited(key, maxRequests, windowMs)` at time `now`
(`Date.now()`), returning the boolean result (`true` = rejected) together
with the updated store:
no record or `now > record.resetTime` creates `{count: 1, resetTime: now
+ windowMs}` and admits; `record.count >= maxRequests` rejects without
touching the store; otherwise `record.count++` and admits. -/
def isRateLimited (s : RLStore) (key : String) (maxRequests windowMs now : Nat) :
    Bool × RLStore :=
  match s key with
  | none => (false, s.setRec key ⟨1, now + windowMs⟩)
  | some record =>
    if record.resetTime < now then
      (false, s.setRec key ⟨1, now + windowMs⟩)
    else if maxRequests ≤ record.count then
      (true, s)
    else
      (false, s.setRec key ⟨record.count + 1, record.resetTime⟩)

/-- `RateLimiter.getRemaining(key, maxRequests)` at time `now`. -/
def getRemaining (s : RLStore) (key : String) (maxRequests now : Nat) : Nat :=
  match s key with
  | none => maxRequests
  | some record =>
    if record.resetTime < now then maxRequests
    else maxRequests - record.count

/-- Run a sequence of `isRateLimited` checks for one key with fixed
`maxRequests` and `windowMs`, one check per listed timestamp, threading
the store; returns the list of results and the final store. -/
def runChecks (key : String) (maxRequests windowMs : Nat) :
    RLStore → List Nat → List Bool × RLStore
  | s, [] => ([], s)
  | s, t :: ts =>
    let r := isRateLimited s key maxRequests windowMs t
    let rest := runChecks key maxRequests windowMs r.2 ts
    (r.1 :: rest.1, rest.2)

/-- Run a sequence of `isRateLimited` checks with a fixed `maxRequests`
but arbitrary keys, window durations and timestamps (one step per
`(key, windowMs, now)` triple), returning the final store. -/
def runSteps (maxRequests : Nat) : RLStore → List (String × Nat × Nat) → RLStore
  | s, [] => s
  | s, (key, windowMs, now) :: steps =>
    runSteps maxRequests (isRateLimited s key maxRequests windowMs now).2 steps

example : (isRateLimited RLStore.empty "k" 2 10 5).1 = false := by decide
example :
    ((isRateLimited RLStore.empty "k" 2 10 5).2 "k") = some ⟨1, 15⟩ := by decide
example :
    (runChecks "k" 2 10 RLStore.empty [0, 1, 2]).1 = [false, false, true] := by decide

/-- Expected result sequence of in-window checks against limit `L`
starting from a stored count of `c`: the `i`-th check is rejected exactly
when `L ≤ c + i`. -/
def expectedResults (L c : Nat) : Nat → List Bool
  | 0 => []
  | n + 1 => decide (L ≤ c) :: expectedResults L (c + 1) n

theorem setRec_self (s : RLStore) (key : String) (r : RateLimitRecord) :
    (s.setRec key r) key = some r := by
  simp [RLStore.setRec]

theorem setRec_cases (s : RLStore) (key k : String) (r0 r : RateLimitRecord)
    (h : (s.setRec key r0) k = some r) : r = r0 ∨ s k = some r := by
  by_cases hk : k = key
  · left
    simp [RLStore.setRec, hk] at h
    exact h.symm
  · right
    simpa [RLStore.setRec, hk] using h

theorem expectedResults_shift (L : Nat) :
    ∀ (n c : Nat), L ≤ c → expectedResults L c n = expectedResults L (c + 1) n := by
  intro n
  induction n with
  | zero => intro c _; rfl
  | succ n ih =>
    intro c hc
    simp only [expectedResults]
    rw [decide_eq_true hc, decide_eq_true (Nat.le_succ_of_le hc),
      ih (c + 1) (Nat.le_succ_of_le hc)]

theorem expectedResults_getD (L : Nat) :
    ∀ (n c i : Nat) (d : Bool), i < n →
      (expectedResults L c n).getD i d = decide (L ≤ c + i) := by
  intro n
  induction n with
  | zero => intro c i d h; omega
  | succ n ih =>
    intro c i d h
    cases i with
    | zero => simp [expectedResults]
    | succ i =>
      have := ih (c + 1) i d (by omega)
      simpa [expectedResults, Nat.add_assoc, Nat.add_comm 1 i] using this

/-- In-window run: if the store holds `{count: c, resetTime: R}` for
`key` and every check time is at most `R`, the `i`-th check of the run is
rejected exactly when `L ≤ c + i`. -/
theorem runChecks_inWindow (key : String) (L W : Nat) :
    ∀ (ts : List Nat) (s : RLStore) (c R : Nat),
      s key = some ⟨c, R⟩ → (∀ t ∈ ts, t ≤ R) →
      (runChecks key L W s ts).1 = expectedResults L c ts.length := by
  intro ts
  induction ts with
  | nil => intro s c R hrec hin; simp [runChecks, expectedResults]
  | cons t ts ih =>
    intro s c R hrec hin
    have ht : t ≤ R := hin t (by simp)
    have hts : ∀ x ∈ ts, x ≤ R := fun x hx => hin x (by simp [hx])
    by_cases hc : L ≤ c
    · have hstep : isRateLimited s key L W t = (true, s) := by
        simp [isRateLimited, hrec, Nat.not_lt.mpr ht, hc]
      simp only [runChecks, hstep, expectedResults, List.length_cons]
      rw [decide_eq_true hc, ih s c R hrec hts, expectedResults_shift L ts.length c hc]
    · have hstep : isRateLimited s key L W t =
          (false, s.setRec key ⟨c + 1, R⟩) := by
        simp [isRateLimited, hrec, Nat.not_lt.mpr ht, hc]
      simp only [runChecks, hstep, expectedResults, List.length_cons]
      rw [decide_eq_false hc, ih (s.setRec key ⟨c + 1, R⟩) (c + 1) R (setRec_self ..) hts]

/-- C1: fixed-window rate limiting. Starting with no record for `key`,
a first check at `t0` followed by `L` further checks all within the
window `[t0, t0 + W]`: checks `0 .. L-1` are admitted (`false`), check
`L` (the `(L+1)`-th) is rejected (`true`); and for any store holding an
expired record for `key` (`resetTime < now`), a check replaces the
record with `{count: 1, resetTime: now + W}` and is admitted. -/
theorem rateLimiter_fixedWindow (key : String) (L W t0 : Nat) (rest : List Nat)
    (s0 : RLStore) (hL : 1 ≤ L) (h0 : s0 key = none)
    (hlen : rest.length = L) (hin : ∀ t ∈ rest, t ≤ t0 + W) :
    (∀ i, i < L → (runChecks key L W s0 (t0 :: rest)).1.getD i true = false) ∧
    (runChecks key L W s0 (t0 :: rest)).1.getD L false = true ∧
    (∀ (s : RLStore) (r : RateLimitRecord) (now : Nat),
      s key = some r → r.resetTime < now →
      isRateLimited s key L W now = (false, s.setRec key ⟨1, now + W⟩)) := by
  have hstep : isRateLimited s0 key L W t0 =
      (false, s0.setRec key ⟨1, t0 + W⟩) := by
    simp [isRateLimited, h0]
  have hout : (runChecks key L W s0 (t0 :: rest)).1 =
      false :: expectedResults L 1 L := by
    simp only [runChecks, hstep]
    rw [runChecks_inWindow key L W rest (s0.setRec key ⟨1, t0 + W⟩) 1 (t0 + W)
      (setRec_self ..) hin, hlen]
  refine ⟨?_, ?_, ?_⟩
  · intro i hi
    rw [hout]
    cases i with
    | zero => rfl
    | succ i =>
      simp only [List.getD_cons_succ]
      rw [expectedResults_getD L L 1 i true (by omega)]
      simp only [decide_eq_false_iff_not]
      omega
  · rw [hout]
    cases L with
    | zero => omega
    | succ n =>
      simp only [List.getD_cons_succ]
      rw [expectedResults_getD (n + 1) (n + 1) 1 n false (by omega)]
      simp only [decide_eq_true_eq]
      omega
  · intro s r now hrec hexp
    simp [isRateLimited, hrec, hexp]

/-- Witness for `rateLimiter_fixedWindow` at `L = 2`, `W = 10`,
checks at times `5, 6, 7` on an empty store. -/
theorem rateLimiter_fixedWindow_witness :
    (∀ i, i < 2 → (runChecks "k" 2 10 RLStore.empty [5, 6, 7]).1.getD i true = false) ∧
    (runChecks "k" 2 10 RLStore.empty [5, 6, 7]).1.getD 2 false = true ∧
    (∀ (s : RLStore) (r : RateLimitRecord) (now : Nat),
      s "k" = some r → r.resetTime < now →
      isRateLimited s "k" 2 10 now = (false, s.setRec "k" ⟨1, now + 10⟩)) :=
  rateLimiter_fixedWindow "k" 2 10 5 [6, 7] RLStore.empty (by decide) rfl rfl
    (by decide)

/-- C4: a rejected check mutates nothing. If the record for `key` is
unexpired (`now ≤ resetTime`) and `count ≥ maxRequests`, the check
returns `true` (rejected) and the store is returned unchanged; in
particular the record for `key` keeps its count and reset time. -/
theorem rateLimiter_reject_noMutation (s : RLStore) (key : String)
    (L W now : Nat) (r : RateLimitRecord)
    (hrec : s key = some r) (hwin : now ≤ r.resetTime) (hcount : L ≤ r.count) :
    isRateLimited s key L W now = (true, s) ∧
    (isRateLimited s key L W now).2 key = some r := by
  have h : isRateLimited s key L W now = (true, s) := by
    simp [isRateLimited, hrec, Nat.not_lt.mpr hwin, hcount]
  exact ⟨h, by rw [h]; exact hrec⟩

/-- Witness for `rateLimiter_reject_noMutation`: a full record
`{count: 2, resetTime: 100}` checked at time `50` with limit `2`. -/
theorem rateLimiter_reject_noMutation_witness :
    isRateLimited (RLStore.empty.setRec "k" ⟨2, 100⟩) "k" 2 10 50 =
      (true, RLStore.empty.setRec "k" ⟨2, 100⟩) ∧
    (isRateLimited (RLStore.empty.setRec "k" ⟨2, 100⟩) "k" 2 10 50).2 "k" =
      some ⟨2, 100⟩ :=
  rateLimiter_reject_noMutation (RLStore.empty.setRec "k" ⟨2, 100⟩) "k" 2 10 50
    ⟨2, 100⟩ (setRec_self ..) (by decide) (by decide)

/-! ## Sanitization (`sanitization.util.ts`) -/

/-- Whitespace as recognized by the JS `trim()` / `\s` class (ASCII part
plus no-break space and BOM). -/
def isJsSpace (c : Char) : Bool :=
  c == ' ' || c == '\t' || c == '\n' || c == '\r' ||
  c == '\x0b' || c == '\x0c' || c == ' ' || c == '﻿'

/-- The `.trim()` step: drop whitespace from both ends. -/
def jsTrim (l : List Char) : List Char :=
  (l.dropWhile isJsSpace).rdropWhile isJsSpace

/-- The `.replace(/[<>]/g, '')` step: delete every angle bracket. -/
def stripAngle (l : List Char) : List Char :=
  l.filter (fun c => !(c == '<' || c == '>'))

/-- Case-insensitive match of one character of a `/.../i` pattern. -/
def charCI (lo up c : Char) : Bool := c == lo || c == up

/-- Does the list start with `javascript:` case-insensitively
(the anchor test of `.replace(/javascript:/gi, '')`)? -/
def matchesJs : List Char → Bool
  | c0 :: c1 :: c2 :: c3 :: c4 :: c5 :: c6 :: c7 :: c8 :: c9 :: c10 :: _ =>
    charCI 'j' 'J' c0 && charCI 'a' 'A' c1 && charCI 'v' 'V' c2 &&
    charCI 'a' 'A' c3 && charCI 's' 'S' c4 && charCI 'c' 'C' c5 &&
    charCI 'r' 'R' c6 && charCI 'i' 'I' c7 && charCI 'p' 'P' c8 &&
    charCI 't' 'T' c9 && c10 == ':'
  | _ => false

/-- Left-to-right scan of `.replace(/javascript:/gi, '')`: when the
pattern matches at the current position its 11 characters are consumed
(`skip` counts characters of a match still to be consumed), and scanning
resumes after the match, never rescanning emitted output. -/
def stripJsAux : Nat → List Char → List Char
  | _, [] => []
  | skip + 1, _ :: rest => stripJsAux skip rest
  | 0, c :: rest =>
    if matchesJs (c :: rest) then stripJsAux 10 rest
    else c :: stripJsAux 0 rest

def stripJs (l : List Char) : List Char := stripJsAux 0 l

/-- Word characters of the JS `\w` class. -/
def isWordChar (c : Char) : Bool :=
  ('a' ≤ c && c ≤ 'z') || ('A' ≤ c && c ≤ 'Z') || ('0' ≤ c && c ≤ '9') || c == '_'

/-- Length of the match of `/on\w+\s*=/i` anchored at the head of the
list, if any: `on` (case-insensitive), one or more word characters,
optional whitespace, then `=`. Greedy `\w+` with backtracking collapses
to the maximal word run because `\w`, `\s` and `=` are disjoint. -/
def matchOnLen : List Char → Option Nat
  | c0 :: c1 :: rest =>
    if charCI 'o' 'O' c0 && charCI 'n' 'N' c1 then
      let w := rest.takeWhile isWordChar
      if w.length = 0 then none
      else
        let rest2 := rest.drop w.length
        let sp := rest2.takeWhile isJsSpace
        match rest2.drop sp.length with
        | '=' :: _ => some (2 + w.length + sp.length + 1)
        | _ => none
    else none
  | _ => none

/-- Left-to-right scan of `.replace(/on\w+\s*=/gi, '')`. -/
def stripOnAux : Nat → List Char → List Char
  | _, [] => []
  | skip + 1, _ :: rest => stripOnAux skip rest
  | 0, c :: rest =>
    match matchOnLen (c :: rest) with
    | some n => stripOnAux (n - 1) rest
    | none => c :: stripOnAux 0 rest

def stripOn (l : List Char) : List Char := stripOnAux 0 l

/-- `sanitizeString`: trim, remove angle brackets, remove `javascript:`
(case-insensitive), remove inline event-handler `on<word>=` patterns
(case-insensitive), in this order. -/
def sanitizeString (input : String) : String :=
  ⟨stripOn (stripJs (stripAngle (jsTrim input.data)))⟩

example : sanitizeString "  hello  " = "hello" := by decide
example : sanitizeString "<script>alert(1)</script>" = "scriptalert(1)/script" := by decide
example : sanitizeString "JavaScript:alert(1)" = "alert(1)" := by decide
example : sanitizeString "a onclick=bad" = "a bad" := by decide
example : sanitizeString "javajavascript:script:x" = "javascript:x" := by decide
example : sanitizeString "<a >" = "a " := by decide

/-- `sanitizePhoneNumber`: keep only digits; a 12-digit result starting
with the `91` country code loses that prefix; a 10-digit result (and any
other length) is returned as is. -/
def sanitizePhoneNumber (phone : String) : String :=
  let cleaned := phone.data.filter Char.isDigit
  if cleaned.length = 10 then ⟨cleaned⟩
  else if cleaned.length = 12 ∧ cleaned.take 2 = ['9', '1'] then ⟨cleaned.drop 2⟩
  else ⟨cleaned⟩

example : sanitizePhoneNumber "+91 98765 43210" = "9876543210" := by decide

mutual
/-- The recursive value walk of `sanitizeObject`: strings through
`sanitizeString`; non-null, non-array objects recursively; arrays
item-wise, where a string item is sanitized, an object item — including
a nested array, since JS arrays satisfy `typeof item === 'object'` — is
passed to `sanitizeObject` (for an array that takes `Object.entries`,
i.e. index-keyed fields); every other value passes through unchanged. -/
def sanitizeValue : JsValue → JsValue
  | .str s => .str (sanitizeString s)
  | .obj fields => .obj (sanitizeFields fields)
  | .arr items => .arr (sanitizeItems items)
  | v => v

def sanitizeFields : List (String × JsValue) → List (String × JsValue)
  | [] => []
  | (k, v) :: rest => (k, sanitizeValue v) :: sanitizeFields rest

def sanitizeItems : List JsValue → List JsValue
  | [] => []
  | item :: rest => sanitizeItem item :: sanitizeItems rest

def sanitizeItem : JsValue → JsValue
  | .str s => .str (sanitizeString s)
  | .obj fields => .obj (sanitizeFields fields)
  | .arr items => .obj (sanitizeEntriesOfArray 0 items)
  | v => v

def sanitizeEntriesOfArray : Nat → List JsValue → List (String × JsValue)
  | _, [] => []
  | i, v :: rest => (toString i, sanitizeValue v) :: sanitizeEntriesOfArray (i + 1) rest
end

/-- Characters whose absence keeps every `sanitizeString` removal step
inert: angle brackets (bracket stripping), `:` (needed by any
`javascript:` match) and `=` (needed by any `on\w+\s*=` match). -/
def cleanChar (c : Char) : Bool :=
  !(c == '<' || c == '>' || c == ':' || c == '=')

def cleanString (s : String) : Bool := s.data.all cleanChar

mutual
/-- All string leaves of a value satisfy `cleanString`. -/
def cleanValue : JsValue → Bool
  | .str s => cleanString s
  | .obj fields => cleanFields fields
  | .arr items => cleanItems items
  | _ => true

def cleanFields : List (String × JsValue) → Bool
  | [] => true
  | (_, v) :: rest => cleanValue v && cleanFields rest

def cleanItems : List JsValue → Bool
  | [] => true
  | v :: rest => cleanValue v && cleanItems rest
end

theorem dropWhile_rdropWhile_fixed {α : Type} (p : α → Bool) (x : List α)
    (hx : List.dropWhile p x = x) :
    List.dropWhile p (List.rdropWhile p x) = List.rdropWhile p x := by
  rw [List.dropWhile_eq_self_iff] at hx ⊢
  intro hl
  have hne : List.rdropWhile p x ≠ [] := List.length_pos.mp hl
  have hxl : 0 < x.length := by
    have h1 := (List.rdropWhile_prefix p x).sublist.length_le
    omega
  have h0 := hx hxl
  rw [List.get_mk_zero hxl] at h0
  rw [List.get_mk_zero hl, (List.rdropWhile_prefix p x).head hne]
  exact h0

theorem jsTrim_idem (l : List Char) : jsTrim (jsTrim l) = jsTrim l := by
  unfold jsTrim
  rw [dropWhile_rdropWhile_fixed isJsSpace (l.dropWhile isJsSpace)
    (List.dropWhile_idempotent isJsSpace l), List.rdropWhile_idempotent]

theorem mem_jsTrim {c : Char} {l : List Char} (h : c ∈ jsTrim l) : c ∈ l :=
  List.Sublist.mem
    (List.Sublist.mem h (List.rdropWhile_prefix isJsSpace _).sublist)
    (List.dropWhile_suffix isJsSpace).sublist

theorem matchesJs_colon (l : List Char) (h : matchesJs l = true) : ':' ∈ l := by
  unfold matchesJs at h
  split at h
  next c0 c1 c2 c3 c4 c5 c6 c7 c8 c9 c10 rest =>
    have h10 : (c10 == ':') = true := (Bool.and_eq_true _ _ ▸ h).2
    have hc : c10 = ':' := by simpa using h10
    subst hc
    simp
  next => simp at h

theorem matchOnLen_mem (l : List Char) (n : Nat) (h : matchOnLen l = some n) :
    '=' ∈ l := by
  unfold matchOnLen at h
  split at h
  next c0 c1 rest =>
    dsimp only at h
    split at h
    next =>
      split at h
      next => simp at h
      next =>
        split at h
        next heq =>
          have h2 : '=' ∈ List.drop (List.takeWhile isWordChar rest).length rest :=
            List.mem_of_mem_drop (heq ▸ List.mem_cons_self '=' _)
          have h3 := List.mem_of_mem_drop h2
          exact List.mem_cons_of_mem c0 (List.mem_cons_of_mem c1 h3)
        next => simp at h
    next => simp at h
  next => simp at h

theorem stripJsAux_zero_id (l : List Char) (h : ∀ c ∈ l, c ≠ ':') :
    stripJsAux 0 l = l := by
  induction l with
  | nil => rfl
  | cons a rest ih =>
    have hm : matchesJs (a :: rest) = false := by
      cases hmm : matchesJs (a :: rest) with
      | false => rfl
      | true => exact absurd rfl (h ':' (matchesJs_colon _ hmm))
    simp only [stripJsAux, hm, Bool.false_eq_true, if_false, List.cons.injEq, true_and]
    exact ih fun c hc => h c (List.mem_cons_of_mem a hc)

theorem stripOnAux_zero_id (l : List Char) (h : ∀ c ∈ l, c ≠ '=') :
    stripOnAux 0 l = l := by
  induction l with
  | nil => rfl
  | cons a rest ih =>
    have hm : matchOnLen (a :: rest) = none := by
      cases hmm : matchOnLen (a :: rest) with
      | none => rfl
      | some n => exact absurd rfl (h '=' (matchOnLen_mem _ n hmm))
    simp only [stripOnAux, hm, List.cons.injEq, true_and]
    exact ih fun c hc => h c (List.mem_cons_of_mem a hc)

theorem cleanChar_split (a : Char) (h : cleanChar a = true) :
    a ≠ '<' ∧ a ≠ '>' ∧ a ≠ ':' ∧ a ≠ '=' := by
  simp only [cleanChar, Bool.not_eq_true', Bool.or_eq_false_iff,
    beq_eq_false_iff_ne] at h
  exact ⟨h.1.1.1, h.1.1.2, h.1.2, h.2⟩

/-- On a string free of `<`, `>`, `:` and `=`, `sanitizeString` is just
the trim step. -/
theorem sanitizeString_eq_trim (s : String) (h : cleanString s = true) :
    sanitizeString s = ⟨jsTrim s.data⟩ := by
  have hall := List.all_eq_true.mp h
  have hcs : ∀ c ∈ jsTrim s.data, cleanChar c = true :=
    fun c hc => hall c (mem_jsTrim hc)
  unfold sanitizeString
  have h1 : stripAngle (jsTrim s.data) = jsTrim s.data := by
    apply List.filter_eq_self.mpr
    intro a ha
    obtain ⟨h1, h2, -, -⟩ := cleanChar_split a (hcs a ha)
    simp [h1, h2]
  have h2 : stripJs (jsTrim s.data) = jsTrim s.data :=
    stripJsAux_zero_id _ fun c hc => (cleanChar_split c (hcs c hc)).2.2.1
  have h3 : stripOn (jsTrim s.data) = jsTrim s.data :=
    stripOnAux_zero_id _ fun c hc => (cleanChar_split c (hcs c hc)).2.2.2
  rw [h1, h2, h3]

/-- On a string free of `<`, `>`, `:` and `=`, `sanitizeString` is
idempotent. -/
theorem sanitizeString_idem_inert (s : String) (h : cleanString s = true) :
    sanitizeString (sanitizeString s) = sanitizeString s := by
  have hall := List.all_eq_true.mp h
  rw [sanitizeString_eq_trim s h]
  have hclean2 : cleanString ⟨jsTrim s.data⟩ = true :=
    List.all_eq_true.mpr fun c hc => hall c (mem_jsTrim hc)
  rw [sanitizeString_eq_trim _ hclean2]
  exact congrArg String.mk (jsTrim_idem s.data)

mutual
/-- On values whose string leaves are clean, the object/array walk is
idempotent (value position). -/
theorem sanitizeValue_idem (v : JsValue) (h : cleanValue v = true) :
    sanitizeValue (sanitizeValue v) = sanitizeValue v :=
  match v, h with
  | .str s, h => by
    simp only [sanitizeValue]
    exact congrArg JsValue.str
      (sanitizeString_idem_inert s (by simpa [cleanValue] using h))
  | .obj fields, h => by
    simp only [sanitizeValue]
    exact congrArg JsValue.obj
      (sanitizeFields_idem fields (by simpa [cleanValue] using h))
  | .arr items, h => by
    simp only [sanitizeValue]
    exact congrArg JsValue.arr
      (sanitizeItems_idem items (by simpa [cleanValue] using h))
  | .num _, _ => rfl
  | .boolean _, _ => rfl
  | .null, _ => rfl

theorem sanitizeFields_idem (fs : List (String × JsValue))
    (h : cleanFields fs = true) :
    sanitizeFields (sanitizeFields fs) = sanitizeFields fs :=
  match fs, h with
  | [], _ => rfl
  | (k, v) :: rest, h => by
    have hsplit := (Bool.and_eq_true _ _).mp (by simpa [cleanFields] using h)
    simp only [sanitizeFields]
    rw [sanitizeValue_idem v hsplit.1, sanitizeFields_idem rest hsplit.2]

theorem sanitizeItems_idem (items : List JsValue) (h : cleanItems items = true) :
    sanitizeItems (sanitizeItems items) = sanitizeItems items :=
  match items, h with
  | [], _ => rfl
  | v :: rest, h => by
    have hsplit := (Bool.and_eq_true _ _).mp (by simpa [cleanItems] using h)
    simp only [sanitizeItems]
    rw [sanitizeItem_idem v hsplit.1, sanitizeItems_idem rest hsplit.2]

theorem sanitizeItem_idem (v : JsValue) (h : cleanValue v = true) :
    sanitizeItem (sanitizeItem v) = sanitizeItem v :=
  match v, h with
  | .str s, h => by
    simp only [sanitizeItem]
    exact congrArg JsValue.str
      (sanitizeString_idem_inert s (by simpa [cleanValue] using h))
  | .obj fields, h => by
    simp only [sanitizeItem]
    exact congrArg JsValue.obj
      (sanitizeFields_idem fields (by simpa [cleanValue] using h))
  | .arr items, h => by
    simp only [sanitizeItem]
    exact congrArg JsValue.obj
      (sanitizeFields_entries 0 items (by simpa [cleanValue] using h))
  | .num _, _ => rfl
  | .boolean _, _ => rfl
  | .null, _ => rfl

/-- A converted nested array (index-keyed entries) is already fully
sanitized after one pass over clean items. -/
theorem sanitizeFields_entries (i : Nat) (items : List JsValue)
    (h : cleanItems items = true) :
    sanitizeFields (sanitizeEntriesOfArray i items) = sanitizeEntriesOfArray i items :=
  match items, h with
  | [], _ => rfl
  | v :: rest, h => by
    have hsplit := (Bool.and_eq_true _ _).mp (by simpa [cleanItems] using h)
    simp only [sanitizeEntriesOfArray, sanitizeFields]
    rw [sanitizeValue_idem v hsplit.1, sanitizeFields_entries (i + 1) rest hsplit.2]
end

/-- C3 counterexample: sanitization is not idempotent as claimed. On the
string `"<a >"` one pass yields `"a "` (bracket removal exposes a
trailing space the leading trim has already passed), and a second pass
trims it to `"a"`. -/
theorem sanitize_not_idempotent :
    ¬ sanitizeString (sanitizeString "<a >") = sanitizeString "<a >" := by
  decide

/-- C3 amended: sanitization is idempotent on inputs whose strings are
already inert for every removal step — strings free of `<`, `>`, `:`
and `=` (no bracket to strip, no possible `javascript:` or `on<word>=`
match): for such strings, and for values all of whose string leaves are
such strings, a second sanitization pass changes nothing. -/
theorem sanitize_idem_inert :
    (∀ s : String, cleanString s = true →
      sanitizeString (sanitizeString s) = sanitizeString s) ∧
    (∀ v : JsValue, cleanValue v = true →
      sanitizeValue (sanitizeValue v) = sanitizeValue v) :=
  ⟨sanitizeString_idem_inert, sanitizeValue_idem⟩

/-- Witness for `sanitize_idem_inert` at the string `" hi "` and the
object `{a: " hi ", b: [" x "]}`. -/
theorem sanitize_idem_inert_witness :
    (cleanString " hi " = true ∧
      sanitizeString (sanitizeString " hi ") = sanitizeString " hi ") ∧
    (cleanValue (.obj [("a", .str " hi "), ("b", .arr [.str " x "])]) = true ∧
      sanitizeValue (sanitizeValue (.obj [("a", .str " hi "), ("b", .arr [.str " x "])])) =
        sanitizeValue (.obj [("a", .str " hi "), ("b", .arr [.str " x "])])) :=
  ⟨⟨by decide, sanitize_idem_inert.1 " hi " (by decide)⟩,
   ⟨by decide, sanitize_idem_inert.2 _ (by decide)⟩⟩

/-- C5: `sanitizePhoneNumber` normalizes `"+91 98765 43210"` to
`"9876543210"`, returns `"9876543210"` unchanged, and returns the digit
subsequence unchanged (no truncation) whenever it has 11 digits and does
not start with the `91` country code. -/
theorem sanitizePhoneNumber_roundTrip :
    sanitizePhoneNumber "+91 98765 43210" = "9876543210" ∧
    sanitizePhoneNumber "9876543210" = "9876543210" ∧
    (∀ s : String, (s.data.filter Char.isDigit).length = 11 →
      (s.data.filter Char.isDigit).take 2 ≠ ['9', '1'] →
      sanitizePhoneNumber s = ⟨s.data.filter Char.isDigit⟩) := by
  refine ⟨by decide, by decide, ?_⟩
  intro s h11 _
  unfold sanitizePhoneNumber
  dsimp only
  rw [if_neg (by omega : ¬ (s.data.filter Char.isDigit).length = 10),
    if_neg (fun hc => absurd hc.1 (by omega))]

/-- Witness for `sanitizePhoneNumber_roundTrip` at the 11-digit input
`"12345678901"`. -/
theorem sanitizePhoneNumber_roundTrip_witness :
    ("12345678901".data.filter Char.isDigit).length = 11 ∧
    sanitizePhoneNumber "12345678901" = "12345678901" :=
  ⟨by decide,
    (sanitizePhoneNumber_roundTrip.2.2 "12345678901" (by decide)
      (by decide)).trans (by decide)⟩

/-- C10: the output of `sanitizePhoneNumber` consists of digits only and
equals the digit subsequence of the input — with the leading `91`
dropped exactly when that subsequence has length 12 and starts with
`91`. -/
theorem sanitizePhoneNumber_digitsOnly (s : String) :
    (∀ c ∈ (sanitizePhoneNumber s).data, c.isDigit = true) ∧
    (if (s.data.filter Char.isDigit).length = 12 ∧
        (s.data.filter Char.isDigit).take 2 = ['9', '1'] then
      (sanitizePhoneNumber s).data = (s.data.filter Char.isDigit).drop 2
    else
      (sanitizePhoneNumber s).data = s.data.filter Char.isDigit) := by
  unfold sanitizePhoneNumber
  dsimp only
  constructor
  · intro c hc
    split_ifs at hc with h1 h2
    · exact (List.mem_filter.mp hc).2
    · exact (List.mem_filter.mp (List.mem_of_mem_drop hc)).2
    · exact (List.mem_filter.mp hc).2
  · split_ifs with h1 h2
    · exact absurd h1.1 (by omega)
    · rfl
    · rfl
    · rfl

/-- The store invariant of C9: every stored record has
`1 ≤ count ≤ L`. -/
def countInvariant (L : Nat) (s : RLStore) : Prop :=
  ∀ k r, s k = some r → 1 ≤ r.count ∧ r.count ≤ L

theorem isRateLimited_preserves_invariant (L : Nat) (hL : 1 ≤ L) (s : RLStore)
    (key : String) (W now : Nat) (hs : countInvariant L s) :
    countInvariant L (isRateLimited s key L W now).2 := by
  intro k r hk
  rcases hrec : s key with _ | record
  · simp only [isRateLimited, hrec] at hk
    rcases setRec_cases s key k ⟨1, now + W⟩ r hk with h | h
    · subst h; exact ⟨Nat.le_refl 1, hL⟩
    · exact hs k r h
  · simp only [isRateLimited, hrec] at hk
    by_cases hexp : record.resetTime < now
    · rw [if_pos hexp] at hk
      rcases setRec_cases s key k ⟨1, now + W⟩ r hk with h | h
      · subst h; exact ⟨Nat.le_refl 1, hL⟩
      · exact hs k r h
    · rw [if_neg hexp] at hk
      by_cases hfull : L ≤ record.count
      · rw [if_pos hfull] at hk
        exact hs k r hk
      · rw [if_neg hfull] at hk
        rcases setRec_cases s key k ⟨record.count + 1, record.resetTime⟩ r hk with h | h
        · subst h
          have hrc := hs key record hrec
          exact ⟨Nat.le_succ_of_le hrc.1, Nat.lt_of_not_le hfull⟩
        · exact hs k r h

theorem runSteps_invariant (L : Nat) (hL : 1 ≤ L) :
    ∀ (steps : List (String × Nat × Nat)) (s : RLStore),
      countInvariant L s → countInvariant L (runSteps L s steps) := by
  intro steps
  induction steps with
  | nil => intro s hs; simpa [runSteps] using hs
  | cons step steps ih =>
    intro s hs
    obtain ⟨key, W, now⟩ := step
    simpa [runSteps] using
      ih _ (isRateLimited_preserves_invariant L hL s key W now hs)

/-- C9: after any sequence of checks with a fixed limit `L ≥ 1`
(arbitrary keys, windows and times), every record present in the store
satisfies `1 ≤ count ≤ L`: records are created with count 1, incremented
only below the limit, never incremented on rejection. -/
theorem rateLimiter_count_invariant (L : Nat) (hL : 1 ≤ L)
    (steps : List (String × Nat × Nat)) (k : String) (r : RateLimitRecord)
    (hrec : runSteps L RLStore.empty steps k = some r) :
    1 ≤ r.count ∧ r.count ≤ L :=
  runSteps_invariant L hL steps RLStore.empty
    (fun _ _ h => by simp [RLStore.empty] at h) k r hrec

/-- Witness for `rateLimiter_count_invariant`: two checks on key `a`
with limit `1` leave `a` with a record of count `1`. -/
theorem rateLimiter_count_invariant_witness :
    1 ≤ (1 : Nat) ∧
    runSteps 1 RLStore.empty [("a", 10, 0), ("a", 10, 3)] "a" =
      some ⟨1, 10⟩ ∧
    1 ≤ (RateLimitRecord.mk 1 10).count ∧ (RateLimitRecord.mk 1 10).count ≤ 1 :=
  ⟨by decide, by decide,
    rateLimiter_count_invariant 1 (by decide) [("a", 10, 0), ("a", 10, 3)] "a"
      ⟨1, 10⟩ (by decide)⟩

/-! ## Authorization middlewares (`requireAdmin`, `requirePermission`) -/

/-- The decoded access token attached to `req.user`. -/
structure DecodedToken where
  userId : String
  role : String

/-- An admin document as resolved by `AdminModel.findById` (external
persistence collaborator; the middleware receives its result). -/
structure AdminRecord where
  id : String
  email : String
  adminRole : String
  isActive : Bool
  permissions : List (String × Bool)

/-- The admin data `requireAdmin` attaches to `req.admin`. -/
structure AdminIdentity where
  id : String
  email : String
  adminRole : String
  permissions : List (String × Bool)

/-- JS truthiness of `permissions[permission]`: the stored boolean when
the key is present, falsy (`undefined`) otherwise. -/
def lookupPerm (perms : List (String × Bool)) (p : String) : Bool :=
  match perms.lookup p with
  | some b => b
  | none => false

/-- `requireAdmin`: requires an authenticated user with role `admin`,
a resolvable admin record, and an active account; on success attaches
the admin identity. The record lookup is a suspension point on the
external store, modelled by the `fetched` argument. -/
def requireAdmin (user : Option DecodedToken) (fetched : Option AdminRecord) :
    Except AppError AdminIdentity :=
  match user with
  | none => .error (AuthenticationError "Not authenticated")
  | some u =>
    if u.role ≠ "admin" then .error (AuthorizationError "Admin access required")
    else
      match fetched with
      | none => .error (AuthenticationError "Admin account not found")
      | some admin =>
        if !admin.isActive then
          .error (AuthorizationError "Admin account is deactivated")
        else
          .ok ⟨admin.id, admin.email, admin.adminRole, admin.permissions⟩

/-- `requirePermission(permission)`: requires `req.admin`; a
`super_admin` role passes unconditionally; otherwise the permission map
entry must be truthy. -/
def requirePermission (permission : String) (admin : Option AdminIdentity) :
    Except AppError Unit :=
  match admin with
  | none => .error (AuthenticationError "Admin authentication required")
  | some a =>
    if a.adminRole = "super_admin" then .ok ()
    else if !(lookupPerm a.permissions permission) then
      .error (AuthorizationError
        ("Permission denied. Required permission: " ++ permission))
    else .ok ()

theorem lookupPerm_true_iff (perms : List (String × Bool)) (p : String) :
    lookupPerm perms p = true ↔ perms.lookup p = some true := by
  unfold lookupPerm
  cases h : perms.lookup p with
  | none => simp
  | some b => cases b <;> simp

/-- C2: the super-role `super_admin` passes every permission check, even
for permissions absent from the map; a non-super role passes exactly
when its permission map contains the required permission with value
`true`, and otherwise is denied with the 403 error naming the required
permission. -/
theorem requirePermission_policy :
    (∀ (a : AdminIdentity) (p : String), a.adminRole = "super_admin" →
      requirePermission p (some a) = .ok ()) ∧
    (∀ (a : AdminIdentity) (p : String), a.adminRole ≠ "super_admin" →
      ((requirePermission p (some a) = .ok ()) ↔ a.permissions.lookup p = some true) ∧
      (a.permissions.lookup p ≠ some true →
        requirePermission p (some a) =
          .error (AuthorizationError
            ("Permission denied. Required permission: " ++ p)))) := by
  constructor
  · intro a p h
    simp [requirePermission, h]
  · intro a p h
    by_cases hl : lookupPerm a.permissions p = true
    · have hlook := (lookupPerm_true_iff a.permissions p).mp hl
      constructor
      · simp [requirePermission, if_neg h, hl, hlook]
      · intro hc
        exact absurd hlook hc
    · have hlook : ¬ a.permissions.lookup p = some true :=
        fun hc => hl ((lookupPerm_true_iff a.permissions p).mpr hc)
      have hlf : lookupPerm a.permissions p = false := by
        cases hb : lookupPerm a.permissions p with
        | false => rfl
        | true => exact absurd hb hl
      constructor
      · simp [requirePermission, if_neg h, hlf, hlook]
      · intro _
        simp [requirePermission, if_neg h, hlf]

/-- Witness for `requirePermission_policy`: a super admin with an empty
permission map passes an unknown permission; a moderator passes
`manage_users` exactly when their map holds it `true`. -/
theorem requirePermission_policy_witness :
    requirePermission "unknown_permission"
      (some ⟨"1", "a@x", "super_admin", []⟩) = .ok () ∧
    ((requirePermission "manage_users"
        (some ⟨"2", "b@x", "moderator", [("manage_users", true)]⟩) = .ok ()) ↔
      ([("manage_users", true)].lookup "manage_users" = some true)) :=
  ⟨requirePermission_policy.1 ⟨"1", "a@x", "super_admin", []⟩ "unknown_permission" rfl,
   (requirePermission_policy.2 ⟨"2", "b@x", "moderator", [("manage_users", true)]⟩
      "manage_users" (by decide)).1⟩

/-- C7 counterexample: the deactivated-admin denial and the
permission denial do NOT carry distinct kinds. Both are
`AuthorizationError`s with code `AUTH_FORBIDDEN` and status 403; at the
concrete deactivated record and a concrete missing permission the two
produced error values agree on code and status. -/
theorem requireAdmin_deactivated_same_kind :
    requireAdmin (some ⟨"u1", "admin"⟩) (some ⟨"u1", "e@x", "admin", false, []⟩) =
      .error (AuthorizationError "Admin account is deactivated") ∧
    requirePermission "manage_users" (some ⟨"u1", "e@x", "admin", []⟩) =
      .error (AuthorizationError "Permission denied. Required permission: manage_users") ∧
    (AuthorizationError "Admin account is deactivated").code =
      (AuthorizationError "Permission denied. Required permission: manage_users").code ∧
    (AuthorizationError "Admin account is deactivated").statusCode =
      (AuthorizationError "Permission denied. Required permission: manage_users").statusCode :=
  ⟨rfl, rfl, rfl, rfl⟩

/-- C7 amended: a deactivated admin is denied with an
`AuthorizationError` whose message is `"Admin account is deactivated"`;
this error carries the same kind (`AUTH_FORBIDDEN`) and status (403) as
a permission denial, so the two causes are distinguishable only by their
message strings, which always differ. -/
theorem requireAdmin_deactivated_distinct_message (tok : DecodedToken)
    (ar : AdminRecord) (p : String)
    (hrole : tok.role = "admin") (hact : ar.isActive = false) :
    requireAdmin (some tok) (some ar) =
      .error (AuthorizationError "Admin account is deactivated") ∧
    (AuthorizationError "Admin account is deactivated").code = "AUTH_FORBIDDEN" ∧
    (AuthorizationError ("Permission denied. Required permission: " ++ p)).code =
      "AUTH_FORBIDDEN" ∧
    ("Admin account is deactivated" : String) ≠
      "Permission denied. Required permission: " ++ p := by
  refine ⟨?_, rfl, rfl, ?_⟩
  · simp [requireAdmin, hrole, hact]
  · intro h
    have h3 := congrArg String.length h
    rw [String.length_append] at h3
    have e1 : ("Admin account is deactivated" : String).length = 28 := rfl
    have e2 : ("Permission denied. Required permission: " : String).length = 40 := rfl
    rw [e1, e2] at h3
    omega

/-- Witness for `requireAdmin_deactivated_distinct_message` at a
concrete deactivated admin record. -/
theorem requireAdmin_deactivated_distinct_message_witness :
    requireAdmin (some ⟨"u2", "admin"⟩) (some ⟨"u2", "f@x", "moderator", false, []⟩) =
      .error (AuthorizationError "Admin account is deactivated") ∧
    (AuthorizationError "Admin account is deactivated").code = "AUTH_FORBIDDEN" ∧
    (AuthorizationError ("Permission denied. Required permission: " ++ "export_data")).code =
      "AUTH_FORBIDDEN" ∧
    ("Admin account is deactivated" : String) ≠
      "Permission denied. Required permission: " ++ "export_data" :=
  requireAdmin_deactivated_distinct_message ⟨"u2", "admin"⟩
    ⟨"u2", "f@x", "moderator", false, []⟩ "export_data" rfl rfl

/-! ## Error translation (`error-handler.middleware.ts`, `response.util.ts`) -/

/-- The error payload of the wire response produced by `errorResponse`:
`{success: false, message, error: {code, details?}, meta: {requestId?}}`
(the timestamp of `meta` is omitted as pure clock output). -/
structure ErrorBody where
  success : Bool
  message : String
  code : String
  details : Option JsValue
  requestId : Option String

/-- An HTTP response: status code plus error body. -/
structure HttpResponse where
  status : Nat
  body : ErrorBody

/-- A failure value reaching the error handler: a structured `AppError`,
a Zod validation error carrying issues (path, message), or any other JS
`Error` identified by its `name`, `message` and (for Mongo duplicate-key
errors) numeric `code`. -/
inductive JsError where
  | app (e : AppError)
  | zod (issues : List (List String × String))
  | generic (name : String) (message : String) (mongoCode : Option Nat)

/-- The guard `details && typeof details === 'object'` of
`errorResponse`: only truthy object-typed details (objects and arrays;
not `null`, strings, numbers or booleans) are emitted. -/
def detailsIsObject : Option JsValue → Bool
  | some (.obj _) => true
  | some (.arr _) => true
  | _ => false

/-- `errorResponse(res, error, requestId)`: an `AppError` supplies its
own status, code, message and (object-typed) details; any other error
value is rendered as the generic 500 `INTERNAL_ERROR` body. -/
def errorResponse (err : JsError) (requestId : Option String) : HttpResponse :=
  match err with
  | .app e =>
    ⟨e.statusCode,
      ⟨false, e.message, e.code,
        if detailsIsObject e.details then e.details else none, requestId⟩⟩
  | _ => ⟨500, ⟨false, "An unexpected error occurred", "INTERNAL_ERROR", none, requestId⟩⟩

/-- Zod issues formatted as `{field: path.join('.'), message}` records. -/
def formatZodIssues (issues : List (List String × String)) : JsValue :=
  .arr (issues.map fun pm =>
    .obj [("field", .str (String.intercalate "." pm.1)), ("message", .str pm.2)])

/-- `errorHandler(err, req, res)`: Zod errors and Mongoose
`ValidationError`/`CastError`/duplicate-key errors become 400
`ValidationError`s; `AppError`s pass to `errorResponse` unchanged; any
other error is non-operational — in production it is replaced by the
generic `new AppError('An unexpected error occurred')`, otherwise it
falls through to `errorResponse`, which renders non-`AppError`s
generically anyway. -/
def errorHandler (err : JsError) (isProduction : Bool)
    (correlationId : Option String) : HttpResponse :=
  match err with
  | .zod issues =>
    errorResponse
      (.app (ValidationError "Validation failed" (some (formatZodIssues issues))))
      correlationId
  | .app e => errorResponse (.app e) correlationId
  | .generic name message mongoCode =>
    if name = "ValidationError" then
      errorResponse (.app (ValidationError message none)) correlationId
    else if name = "CastError" then
      errorResponse (.app (ValidationError "Invalid ID format" none)) correlationId
    else if name = "MongoServerError" ∧ mongoCode = some 11000 then
      errorResponse (.app (ValidationError "Resource already exists" none)) correlationId
    else if isProduction then
      errorResponse (.app (AppError.ofMessage "An unexpected error occurred")) correlationId
    else
      errorResponse (.generic name message mongoCode) correlationId

/-- C6: the error kind fixes the HTTP status at construction —
ValidationFailed 400, RateLimitExceeded 429, PermissionDenied and
AccountDeactivated (both `AuthorizationError`) 403, NotFound 404,
Conflict 409, StorageFailure (`DatabaseError`) and Unknown (bare
`AppError`) 500 — and the translator emits exactly the constructed
status, never altering it. -/
theorem errorKind_status_mapping :
    (∀ (m : String) (d : Option JsValue), (ValidationError m d).statusCode = 400) ∧
    (∀ m : String, (RateLimitError m).statusCode = 429) ∧
    (∀ m : String, (AuthorizationError m).statusCode = 403) ∧
    (∀ m : String, (NotFoundError m).statusCode = 404) ∧
    (∀ m : String, (ConflictError m).statusCode = 409) ∧
    (∀ (m : String) (d : Option JsValue), (DatabaseError m d).statusCode = 500) ∧
    (∀ m : String, (AppError.ofMessage m).statusCode = 500) ∧
    (∀ (e : AppError) (cid : Option String),
      (errorResponse (.app e) cid).status = e.statusCode) :=
  ⟨fun _ _ => rfl, fun _ => rfl, fun _ => rfl, fun _ => rfl, fun _ => rfl,
   fun _ _ => rfl, fun _ => rfl, fun _ _ => rfl⟩

/-- C8 counterexample: a known structured error does NOT always pass
through with its own details — a primitive (non-object) details value is
dropped by the `details && typeof details === 'object'` guard: a
`DatabaseError` carrying the string detail `"driver detail"` is rendered
with no details at all. -/
theorem errorTranslator_details_dropped :
    ¬ ((errorHandler
          (.app (DatabaseError "db write failed" (some (.str "driver detail"))))
          true none).body.details =
        (DatabaseError "db write failed" (some (.str "driver detail"))).details) := by
  intro h
  nomatch h

/-- C8 amended: the translator is total and non-leaking — a structured
`AppError` passes through with its own kind, status and message, and
with its details exactly when they are object-typed (primitive details
are omitted); every unrecognized failure is rendered, in production and
development alike, as the fixed generic body with status 500 and kind
`INTERNAL_ERROR`, containing nothing of the original error's message or
internals. -/
theorem errorTranslator_contract :
    (∀ (e : AppError) (isProduction : Bool) (cid : Option String),
      errorHandler (.app e) isProduction cid =
        ⟨e.statusCode,
          ⟨false, e.message, e.code,
            if detailsIsObject e.details then e.details else none, cid⟩⟩) ∧
    (∀ (name message : String) (mongoCode : Option Nat) (isProduction : Bool)
        (cid : Option String),
      name ≠ "ValidationError" → name ≠ "CastError" →
      ¬ (name = "MongoServerError" ∧ mongoCode = some 11000) →
      errorHandler (.generic name message mongoCode) isProduction cid =
        ⟨500, ⟨false, "An unexpected error occurred", "INTERNAL_ERROR", none, cid⟩⟩) := by
  constructor
  · intro e isProduction cid
    rfl
  · intro name message mongoCode isProduction cid h1 h2 h3
    simp only [errorHandler, if_neg h1, if_neg h2, if_neg h3]
    cases isProduction <;> rfl

/-- Witness for `errorTranslator_contract`: an unrecognized `TypeError`
in production is rendered as the fixed generic 500 body. -/
theorem errorTranslator_contract_witness :
    errorHandler (.generic "TypeError" "boom at 0x1f" none) true (some "req-1") =
      ⟨500, ⟨false, "An unexpected error occurred", "INTERNAL_ERROR", none,
        some "req-1"⟩⟩ :=
  errorTranslator_contract.2 "TypeError" "boom at 0x1f" none true (some "req-1")
    (by decide) (by decide) (by simp)
